import Mathlib

/-!
Verification of the Forex Converter API (`app/main.py`) against its
natural-language specification.

The Python service is shallowly embedded: Python floats are modelled as
exact rationals (the decimal literals of the rate table are exact), the
`round(x, n)` builtin is modelled as round-half-to-even on rationals
(`pyRound`), Python dictionaries as association lists, and the FastAPI
endpoint `convert` as a pure function returning a `ConvertResult`
(`HTTPException(status_code=400, detail=...)` becomes `.badRequest detail`,
the `except` branch raising 500 becomes `.internalError`, which is taken
exactly when the only possible arithmetic fault — division by a zero
rate — would occur).  The Prometheus counters are modelled as event lists
with a counting function.
-/

namespace Forex

/-- The `EXCHANGE_RATES` dictionary of `app/main.py`, with the float
literals read as exact decimals. -/
def EXCHANGE_RATES : List (String × ℚ) :=
  [("USD", 1),
   ("EUR", 92/100),
   ("GBP", 79/100),
   ("JPY", 15150/100),
   ("CAD", 136/100),
   ("AUD", 149/100),
   ("CHF", 89/100),
   ("CNY", 723/100),
   ("INR", 8333/100),
   ("MAD", 1007/100),
   ("BTC", 15/1000000)]

/-- Dictionary lookup `EXCHANGE_RATES[c]` / membership test `c in EXCHANGE_RATES`. -/
def lookupRate (c : String) : Option ℚ :=
  EXCHANGE_RATES.lookup c

/-- Uppercase one ASCII character, as Python `str.upper()` does on the
ASCII letters (the only case mapping the currency-code strings exercise). -/
def upperChar (c : Char) : Char :=
  if 'a' ≤ c ∧ c ≤ 'z' then Char.ofNat (c.toNat - 32) else c

/-- Python `s.upper()` on ASCII strings: uppercase every character. -/
def upper (s : String) : String :=
  ⟨s.data.map upperChar⟩

/-- Python `round(x, ndigits)`: round to `ndigits` decimal places, ties to
even (banker's rounding), on the exact rational model. -/
def pyRound (x : ℚ) (ndigits : ℕ) : ℚ :=
  let m : ℚ := 10 ^ ndigits
  let y := x * m
  let fl : ℤ := ⌊y⌋
  let frac := y - fl
  let r : ℤ :=
    if frac < 1/2 then fl
    else if 1/2 < frac then fl + 1
    else if fl % 2 = 0 then fl else fl + 1
  (r : ℚ) / m

/-- The `ConversionRequest` pydantic model. -/
structure ConversionRequest where
  amount : ℚ
  from_currency : String
  to_currency : String
deriving DecidableEq

/-- Outcome of the `POST /convert` handler: a 400 `HTTPException` with its
`detail` string, the 500 branch of the `except` clause, or the success
payload (`timestamp` omitted: it is wall-clock time, outside the model). -/
inductive ConvertResult where
  | badRequest (detail : String)
  | internalError
  | ok (original_amount : ℚ) (from_currency to_currency : String)
       (converted_amount exchange_rate : ℚ)
deriving DecidableEq

/-- The body of the `convert` endpoint (`app/main.py`, lines 141–181):
uppercase both codes, validate source currency, target currency, then
amount, and compute the conversion through the USD base.  The only
arithmetic fault the `try` block can see is division by a zero rate, so
the `except`/500 branch is modelled as the `rate_from = 0` case. -/
def convert (conversion : ConversionRequest) : ConvertResult :=
  let from_curr := upper conversion.from_currency
  let to_curr := upper conversion.to_currency
  match lookupRate from_curr with
  | none => .badRequest ("Unsupported source currency: " ++ from_curr)
  | some rate_from =>
    match lookupRate to_curr with
    | none => .badRequest ("Unsupported target currency: " ++ to_curr)
    | some rate_to =>
      if conversion.amount ≤ 0 then
        .badRequest "Amount must be greater than 0"
      else if rate_from = 0 then
        .internalError
      else
        let amount_in_usd := conversion.amount / rate_from
        let converted_amount := amount_in_usd * rate_to
        let rate := rate_to / rate_from
        .ok conversion.amount from_curr to_curr
          (pyRound converted_amount 4) (pyRound rate 6)

/-- A `status` label of the `REQUEST_COUNT` Prometheus counter: the
middleware first increments with the literal string `"pending"` and later
with the integer `response.status_code`; the two kinds of label never
coincide. -/
inductive StatusLabel where
  | pending
  | code (status : ℕ)
deriving DecidableEq

/-- The state of the `forex_http_requests_total` counter, modelled as the
list of label triples `(method, endpoint, status)` of all increments
performed so far; a labelled counter value is the number of occurrences of
its label triple. -/
structure ObsState where
  requestEvents : List (String × String × StatusLabel)
deriving DecidableEq

/-- The value of `REQUEST_COUNT.labels(method, endpoint, status)`. -/
def requestCount (s : ObsState) (method endpoint : String) (l : StatusLabel) : ℕ :=
  s.requestEvents.count (method, endpoint, l)

/-- The part of `add_observability` that runs before `call_next`
(`app/main.py`, line 79): the increment labelled `"pending"`. -/
def observabilityBeforeHandler (s : ObsState) (method path : String) : ObsState :=
  ⟨(method, path, .pending) :: s.requestEvents⟩

/-- The part of `add_observability` that runs after `call_next`
(`app/main.py`, line 87): the increment labelled with the response's final
status code. -/
def observabilityAfterHandler (s : ObsState) (method path : String) (status : ℕ) : ObsState :=
  ⟨(method, path, .code status) :: s.requestEvents⟩

/-- The `add_observability` middleware around a single request: the
`"pending"` increment, then the handler (which never touches
`REQUEST_COUNT`; it is summarised by the final status code it returns),
then the increment labelled with that final status code.  The latency
histogram, headers and log line do not touch `REQUEST_COUNT` and are
outside this state. -/
def add_observability (s : ObsState) (method path : String)
    (handler : Unit → ℕ) : ObsState × ℕ :=
  let s1 := observabilityBeforeHandler s method path
  let status := handler ()
  (observabilityAfterHandler s1 method path status, status)

/-- One call of the `convert` endpoint together with its effect on the
`forex_conversions_total` counter (`app/main.py`, line 168): modelled as
the list of `(from_currency, to_currency)` labels of all increments so
far; the increment happens exactly on the success path, with the
uppercased codes. -/
def convertAndCount (s : List (String × String)) (req : ConversionRequest) :
    List (String × String) × ConvertResult :=
  match convert req with
  | .ok a f t c e => ((f, t) :: s, .ok a f t c e)
  | r => (s, r)

/-- The `forex_conversions_total` counter state after serving a sequence of
conversion requests, starting from a fresh (all-zero) counter. -/
def runRequests (reqs : List ConversionRequest) : List (String × String) :=
  reqs.foldl (fun s req => (convertAndCount s req).1) []

/-- Whether a request is served successfully as a conversion from `A` to
`B` (after uppercasing). -/
def succeedsWithPair (A B : String) (req : ConversionRequest) : Bool :=
  match convert req with
  | .ok _ f t _ _ => f == A && t == B
  | _ => false

/-- Tests whether the first character list is an initial run of the
second. -/
def leadsWith : List Char → List Char → Bool
  | [], _ => true
  | _ :: _, [] => false
  | a :: as, b :: bs => a == b && leadsWith as bs

/-- Tests whether the first character list occurs contiguously somewhere
in the second. -/
def hasSub : List Char → List Char → Bool
  | needle, [] => leadsWith needle []
  | needle, c :: t => leadsWith needle (c :: t) || hasSub needle t

/-- Python `needle in hay` on strings: substring occurrence. -/
def strHasSub (needle hay : String) : Bool :=
  hasSub needle.data hay.data

/-! ### Helper lemmas shared by the claim theorems -/

/-- A successful association-list lookup comes from a member of the list. -/
theorem lookup_mem :
    ∀ (l : List (String × ℚ)) (c : String) (r : ℚ),
      l.lookup c = some r → (c, r) ∈ l := by
  intro l
  induction l with
  | nil =>
    intro c r h
    simp [List.lookup] at h
  | cons p t ih =>
    intro c r h
    obtain ⟨a, b⟩ := p
    rw [List.lookup] at h
    cases hca : (c == a) with
    | true =>
      rw [hca] at h
      obtain rfl : b = r := Option.some.inj h
      obtain rfl : c = a := eq_of_beq hca
      exact List.mem_cons_self _ _
    | false =>
      rw [hca] at h
      exact List.mem_cons_of_mem _ (ih c r h)

/-- Every rate in the table is positive. -/
theorem rates_pos : ∀ p ∈ EXCHANGE_RATES, 0 < p.2 := by
  with_unfolding_all decide

/-- A rate obtained by lookup is positive. -/
theorem lookupRate_pos {c : String} {r : ℚ} (h : lookupRate c = some r) :
    0 < r :=
  rates_pos _ (lookup_mem _ _ _ h)

/-- Evaluation of `convert` on the success path. -/
theorem convert_ok_eval (req : ConversionRequest) (rf rt : ℚ)
    (hf : lookupRate (upper req.from_currency) = some rf)
    (ht : lookupRate (upper req.to_currency) = some rt)
    (ha : 0 < req.amount) :
    convert req = .ok req.amount (upper req.from_currency) (upper req.to_currency)
      (pyRound (req.amount / rf * rt) 4) (pyRound (rt / rf) 6) := by
  have hrf : rf ≠ 0 := ne_of_gt (lookupRate_pos hf)
  simp only [convert, hf, ht]
  rw [if_neg (not_le.mpr ha), if_neg hrf]

/-- Evaluation of `convert` when both codes resolve but the amount is not
positive. -/
theorem convert_nonpos_amount (req : ConversionRequest) (rf rt : ℚ)
    (hf : lookupRate (upper req.from_currency) = some rf)
    (ht : lookupRate (upper req.to_currency) = some rt)
    (ha : req.amount ≤ 0) :
    convert req = .badRequest "Amount must be greater than 0" := by
  simp only [convert, hf, ht]
  rw [if_pos ha]

/-- Rounding to `n` decimal places moves a value by at most half of the
last retained decimal place. -/
theorem abs_pyRound_sub_le (x : ℚ) (n : ℕ) :
    |pyRound x n - x| ≤ 1 / (2 * 10 ^ n) := by
  have hm : (0:ℚ) < 10 ^ n := by positivity
  simp only [pyRound]
  set y := x * 10 ^ n with hy
  set fl : ℤ := ⌊y⌋ with hfl
  have h1 : (fl : ℚ) ≤ y := Int.floor_le y
  have h2 : y < fl + 1 := Int.lt_floor_add_one y
  have hx : x = y / 10 ^ n := by
    field_simp [hy]
  have key : ∀ r : ℤ, |(r : ℚ) - y| ≤ 1/2 → |(r : ℚ) / 10 ^ n - x| ≤ 1 / (2 * 10 ^ n) := by
    intro r hr
    rw [hx, div_sub_div_same, abs_div, abs_of_pos hm]
    rw [div_le_div_iff₀ hm (by positivity)]
    calc |(r : ℚ) - y| * (2 * 10 ^ n) ≤ (1/2) * (2 * 10 ^ n) := by
          apply mul_le_mul_of_nonneg_right hr (by positivity)
      _ = 1 * 10 ^ n := by ring
  apply key
  split_ifs with hlt hgt hev
  · rw [abs_sub_comm, abs_of_nonneg (by linarith)]
    linarith
  · push_cast
    rw [abs_of_nonneg (by linarith)]
    linarith
  · rw [abs_sub_comm, abs_of_nonneg (by linarith)]
    linarith
  · push_cast
    rw [abs_of_nonneg (by linarith)]
    linarith

/-- A list is an initial run of itself. -/
theorem leadsWith_refl : ∀ l : List Char, leadsWith l l = true := by
  intro l
  induction l with
  | nil => rfl
  | cons a t ih => simp [leadsWith, ih]

/-- A suffix occurs as a substring. -/
theorem hasSub_append : ∀ (p n : List Char), hasSub n (p ++ n) = true := by
  intro p
  induction p with
  | nil =>
    intro n
    cases n with
    | nil => rfl
    | cons c t => simp [hasSub, leadsWith_refl]
  | cons c t ih =>
    intro n
    simp [hasSub, ih n]

/-- A string contains any of its suffixes, in particular a value appended
to a fixed message text. -/
theorem strHasSub_append (p s : String) : strHasSub s (p ++ s) = true := by
  simp only [strHasSub, String.data_append]
  exact hasSub_append p.data s.data

/-! ### Claim theorems -/

/-- C1: for every request whose amount is positive and whose uppercased
currency codes are both keys of the rate table, `convert` succeeds with
`converted_amount = round((amount / rate[from]) * rate[to], 4)` and
`exchange_rate = round(rate[to] / rate[from], 6)`. -/
theorem convert_success_formula (req : ConversionRequest) (rf rt : ℚ)
    (hf : lookupRate (upper req.from_currency) = some rf)
    (ht : lookupRate (upper req.to_currency) = some rt)
    (ha : 0 < req.amount) :
    convert req = .ok req.amount (upper req.from_currency) (upper req.to_currency)
      (pyRound (req.amount / rf * rt) 4) (pyRound (rt / rf) 6) :=
  convert_ok_eval req rf rt hf ht ha

/-- Witness for C1: converting 100 USD to EUR yields 92.0 at rate 0.92. -/
theorem convert_success_formula_witness :
    lookupRate (upper "USD") = some 1 ∧
    lookupRate (upper "EUR") = some (92/100) ∧
    (0:ℚ) < 100 ∧
    convert ⟨100, "USD", "EUR"⟩ =
      .ok 100 (upper "USD") (upper "EUR")
        (pyRound ((100:ℚ) / 1 * (92/100)) 4) (pyRound ((92:ℚ)/100 / 1) 6) :=
  ⟨by with_unfolding_all decide, by with_unfolding_all decide, by norm_num,
   convert_success_formula ⟨100, "USD", "EUR"⟩ 1 (92/100)
     (by with_unfolding_all decide) (by with_unfolding_all decide) (by norm_num)⟩

/-- C2: `convert` produces a 400 error exactly when the uppercased source
code is absent from the table, or the uppercased target code is absent, or
the amount is not positive; otherwise no error is raised. -/
theorem convert_badRequest_iff (req : ConversionRequest) :
    (∃ d, convert req = .badRequest d) ↔
      (lookupRate (upper req.from_currency) = none ∨
       lookupRate (upper req.to_currency) = none ∨
       req.amount ≤ 0) := by
  cases hf : lookupRate (upper req.from_currency) with
  | none => simp only [convert, hf]; simp
  | some rf =>
    cases ht : lookupRate (upper req.to_currency) with
    | none => simp only [convert, hf, ht]; simp
    | some rt =>
      by_cases ha : req.amount ≤ 0
      · simp only [convert, hf, ht]
        simp [ha]
      · have hrf : rf ≠ 0 := ne_of_gt (lookupRate_pos hf)
        simp only [convert, hf, ht]
        simp [ha, hrf]

/-- C5: converting a positive amount from a supported code to itself
yields `round(a, 4)` and an exchange rate of exactly 1. -/
theorem convert_self_identity (c : String) (r : ℚ)
    (h : lookupRate (upper c) = some r) (a : ℚ) (ha : 0 < a) :
    convert ⟨a, c, c⟩ = .ok a (upper c) (upper c) (pyRound a 4) 1 := by
  have hr : r ≠ 0 := ne_of_gt (lookupRate_pos h)
  have := convert_ok_eval ⟨a, c, c⟩ r r h h ha
  rw [div_mul_cancel₀ a hr, div_self hr] at this
  rw [this]
  have h16 : pyRound 1 6 = 1 := by with_unfolding_all decide
  rw [h16]

/-- Witness for C5: converting 3 "usd" to "usd" yields round(3, 4) = 3 at
rate 1. -/
theorem convert_self_identity_witness :
    lookupRate (upper "usd") = some 1 ∧ (0:ℚ) < 3 ∧
    convert ⟨3, "usd", "usd"⟩ = .ok 3 (upper "usd") (upper "usd") (pyRound 3 4) 1 :=
  ⟨by with_unfolding_all decide, by norm_num,
   convert_self_identity "usd" 1 (by with_unfolding_all decide) 3 (by norm_num)⟩

/-- C7: two requests with the same amount whose currency codes agree after
uppercasing are served identically: same success payload, same error. -/
theorem convert_case_insensitive (r1 r2 : ConversionRequest)
    (hamt : r1.amount = r2.amount)
    (hf : upper r1.from_currency = upper r2.from_currency)
    (ht : upper r1.to_currency = upper r2.to_currency) :
    convert r1 = convert r2 := by
  simp only [convert, hamt, hf, ht]

/-- Witness for C7: "usd"/"eUr" is served exactly like "USD"/"EUR". -/
theorem convert_case_insensitive_witness :
    (⟨7, "usd", "eUr"⟩ : ConversionRequest).amount =
      (⟨7, "USD", "EUR"⟩ : ConversionRequest).amount ∧
    upper "usd" = upper "USD" ∧ upper "eUr" = upper "EUR" ∧
    convert ⟨7, "usd", "eUr"⟩ = convert ⟨7, "USD", "EUR"⟩ :=
  ⟨rfl, by decide, by decide,
   convert_case_insensitive ⟨7, "usd", "eUr"⟩ ⟨7, "USD", "EUR"⟩ rfl
     (by decide) (by decide)⟩

/-- C10: every successful response echoes the request: `original_amount`
is the request amount unchanged and the response currency codes are the
uppercased request codes. -/
theorem convert_echoes_request (req : ConversionRequest)
    (a c e : ℚ) (f t : String)
    (h : convert req = .ok a f t c e) :
    a = req.amount ∧ f = upper req.from_currency ∧ t = upper req.to_currency := by
  cases hf : lookupRate (upper req.from_currency) with
  | none =>
    simp only [convert, hf] at h
    exact ConvertResult.noConfusion h
  | some rf =>
    cases ht : lookupRate (upper req.to_currency) with
    | none =>
      simp only [convert, hf, ht] at h
      exact ConvertResult.noConfusion h
    | some rt =>
      simp only [convert, hf, ht] at h
      split_ifs at h
      obtain ⟨h1, h2, h3, -, -⟩ := ConvertResult.ok.injEq .. ▸ h
      exact ⟨h1.symm, h2.symm, h3.symm⟩

/-- Witness for C10: the successful USD→EUR response echoes amount 100 and
the uppercased codes. -/
theorem convert_echoes_request_witness :
    (100:ℚ) = (⟨100, "Usd", "eur"⟩ : ConversionRequest).amount ∧
    "USD" = upper (⟨100, "Usd", "eur"⟩ : ConversionRequest).from_currency ∧
    "EUR" = upper (⟨100, "Usd", "eur"⟩ : ConversionRequest).to_currency :=
  convert_echoes_request ⟨100, "Usd", "eur"⟩ 100 92 (92/100) "USD" "EUR"
    (by with_unfolding_all decide)

/-- C3: across one request, the middleware increments the counter labelled
with the final status code exactly once — by one for the final status, by
zero for every other status code — and that increment happens only after
the handler completes: the pre-handler phase leaves every status-code
label untouched. -/
theorem requestCount_final_status (s : ObsState) (method path : String)
    (handler : Unit → ℕ) :
    requestCount (add_observability s method path handler).1 method path
        (.code (handler ())) =
      requestCount s method path (.code (handler ())) + 1 ∧
    (∀ st : ℕ, st ≠ handler () →
      requestCount (add_observability s method path handler).1 method path
          (.code st) =
        requestCount s method path (.code st)) ∧
    (∀ st : ℕ,
      requestCount (observabilityBeforeHandler s method path) method path
          (.code st) =
        requestCount s method path (.code st)) := by
  simp only [add_observability, observabilityBeforeHandler,
    observabilityAfterHandler, requestCount]
  refine ⟨?_, ?_, ?_⟩
  · simp [List.count_cons]
  · intro st hst
    simp [List.count_cons, Ne.symm hst]
  · intro st
    simp [List.count_cons]

/-- Witness for C3: serving one GET /health request that ends with status
200 on a fresh counter yields count 1 for label 200, count 0 for label
404, and no 200-labelled increment before the handler runs. -/
theorem requestCount_final_status_witness :
    requestCount (add_observability ⟨[]⟩ "GET" "/health" (fun _ => 200)).1
        "GET" "/health" (.code 200) =
      requestCount ⟨[]⟩ "GET" "/health" (.code 200) + 1 ∧
    requestCount (add_observability ⟨[]⟩ "GET" "/health" (fun _ => 200)).1
        "GET" "/health" (.code 404) =
      requestCount ⟨[]⟩ "GET" "/health" (.code 404) ∧
    requestCount (observabilityBeforeHandler ⟨[]⟩ "GET" "/health")
        "GET" "/health" (.code 200) =
      requestCount ⟨[]⟩ "GET" "/health" (.code 200) :=
  ⟨(requestCount_final_status ⟨[]⟩ "GET" "/health" (fun _ => 200)).1,
   (requestCount_final_status ⟨[]⟩ "GET" "/health" (fun _ => 200)).2.1 404
     (by decide),
   (requestCount_final_status ⟨[]⟩ "GET" "/health" (fun _ => 200)).2.2 200⟩

/-- C8: after serving any sequence of requests from a fresh counter, the
conversion counter labelled (A, B) equals the number of requests in the
sequence that were served as successful conversions from A to B; failed
validations never increment it. -/
theorem conversion_counter_counts (reqs : List ConversionRequest)
    (A B : String) :
    (runRequests reqs).count (A, B) =
      (reqs.filter (succeedsWithPair A B)).length := by
  suffices h : ∀ (l : List ConversionRequest) (s : List (String × String)),
      (l.foldl (fun s req => (convertAndCount s req).1) s).count (A, B) =
        s.count (A, B) + (l.filter (succeedsWithPair A B)).length by
    simpa [runRequests] using h reqs []
  intro l
  induction l with
  | nil => intro s; simp
  | cons r t ih =>
    intro s
    rw [List.foldl_cons, ih]
    cases hcv : convert r with
    | badRequest d =>
      simp [convertAndCount, hcv, List.filter_cons, succeedsWithPair]
    | internalError =>
      simp [convertAndCount, hcv, List.filter_cons, succeedsWithPair]
    | ok a f tc c e =>
      by_cases hA : f = A
      · by_cases hB : tc = B
        · subst hA; subst hB
          simp [convertAndCount, hcv, List.filter_cons, succeedsWithPair,
            List.count_cons]
          omega
        · simp [convertAndCount, hcv, List.filter_cons, succeedsWithPair,
            List.count_cons, hB]
      · simp [convertAndCount, hcv, List.filter_cons, succeedsWithPair,
          List.count_cons, hA]

/-- C9: every rate reachable by lookup is strictly positive, so no request
that passes validation can divide by zero and the 500 branch of `convert`
is unreachable: `convert` never returns `internalError`. -/
theorem rates_positive_no_internal_error :
    (∀ p ∈ EXCHANGE_RATES, 0 < p.2) ∧
    (∀ c r, lookupRate c = some r → 0 < r) ∧
    (∀ req, convert req ≠ .internalError) := by
  refine ⟨rates_pos, ?_, ?_⟩
  · intro c r h
    exact lookupRate_pos h
  · intro req
    cases hf : lookupRate (upper req.from_currency) with
    | none =>
      simp only [convert, hf]
      exact fun h => ConvertResult.noConfusion h
    | some rf =>
      cases ht : lookupRate (upper req.to_currency) with
      | none =>
        simp only [convert, hf, ht]
        exact fun h => ConvertResult.noConfusion h
      | some rt =>
        by_cases ha : req.amount ≤ 0
        · rw [convert_nonpos_amount req rf rt hf ht ha]
          exact fun h => ConvertResult.noConfusion h
        · rw [convert_ok_eval req rf rt hf ht (not_le.mp ha)]
          exact fun h => ConvertResult.noConfusion h

/-- Witness for C9: the EUR rate is positive and a concrete conversion
does not hit the 500 branch. -/
theorem rates_positive_no_internal_error_witness :
    (0:ℚ) < ("EUR", (92:ℚ)/100).2 ∧ (0:ℚ) < 92/100 ∧
    convert ⟨1, "USD", "EUR"⟩ ≠ .internalError :=
  ⟨rates_positive_no_internal_error.1 ("EUR", (92:ℚ)/100)
     (by with_unfolding_all decide),
   rates_positive_no_internal_error.2.1 "EUR" (92/100)
     (by with_unfolding_all decide),
   rates_positive_no_internal_error.2.2 ⟨1, "USD", "EUR"⟩⟩

/-- Counterexample to C4 as stated: the request (amount -5, USD→EUR) is
rejected by validation with detail "Amount must be greater than 0", a
fixed message that does not contain the offending value (no "-5", not
even "5", occurs in it). -/
theorem amount_error_message_lacks_value :
    convert ⟨-5, "USD", "EUR"⟩ = .badRequest "Amount must be greater than 0" ∧
    strHasSub "-5" "Amount must be greater than 0" = false ∧
    strHasSub "5" "Amount must be greater than 0" = false := by
  refine ⟨?_, by decide, by decide⟩
  with_unfolding_all decide

/-- C4 amended: every validation rejection returns a 400 error; for an
unsupported source or target currency the message contains the offending
(uppercased) code — in particular "XXX" yields a message naming "XXX" —
while a non-positive amount yields the fixed message "Amount must be
greater than 0", which names the offending field but not its value. -/
theorem validation_error_messages (req : ConversionRequest) :
    (lookupRate (upper req.from_currency) = none →
      convert req =
        .badRequest ("Unsupported source currency: " ++ upper req.from_currency) ∧
      strHasSub (upper req.from_currency)
        ("Unsupported source currency: " ++ upper req.from_currency) = true) ∧
    (∀ rf, lookupRate (upper req.from_currency) = some rf →
      lookupRate (upper req.to_currency) = none →
      convert req =
        .badRequest ("Unsupported target currency: " ++ upper req.to_currency) ∧
      strHasSub (upper req.to_currency)
        ("Unsupported target currency: " ++ upper req.to_currency) = true) ∧
    (∀ rf rt, lookupRate (upper req.from_currency) = some rf →
      lookupRate (upper req.to_currency) = some rt →
      req.amount ≤ 0 →
      convert req = .badRequest "Amount must be greater than 0") := by
  refine ⟨?_, ?_, ?_⟩
  · intro h
    refine ⟨?_, strHasSub_append _ _⟩
    simp only [convert, h]
  · intro rf hf ht
    refine ⟨?_, strHasSub_append _ _⟩
    simp only [convert, hf, ht]
  · intro rf rt hf ht ha
    exact convert_nonpos_amount req rf rt hf ht ha

/-- Witness for the amended C4: the unknown code "xxx" is rejected with a
message naming "XXX". -/
theorem validation_error_messages_witness :
    convert ⟨5, "xxx", "usd"⟩ =
      .badRequest ("Unsupported source currency: " ++ upper "xxx") ∧
    strHasSub (upper "xxx")
      ("Unsupported source currency: " ++ upper "xxx") = true :=
  (validation_error_messages ⟨5, "xxx", "usd"⟩).1 (by with_unfolding_all decide)

/-- Counterexample to C6 as stated: converting 1 JPY to BTC succeeds with
converted_amount 0 (the exact value 0.000000099... rounds to 0.0 at 4
decimal places), and converting that result back from BTC to JPY is
rejected by validation, so the round trip does not return any amount at
all, let alone one within rounding tolerance of 1. -/
theorem roundtrip_jpy_btc_fails :
    (0:ℚ) < 1 ∧
    convert ⟨1, "JPY", "BTC"⟩ = .ok 1 "JPY" "BTC" 0 0 ∧
    convert ⟨0, "BTC", "JPY"⟩ = .badRequest "Amount must be greater than 0" := by
  refine ⟨by norm_num, ?_, ?_⟩ <;> with_unfolding_all decide

/-- C6 amended: whenever both conversions of the round trip succeed (which
requires the intermediate 4-decimal rounding not to collapse the amount
to zero), the returned amount is within the tolerance forced by the two
independent 4-decimal roundings: half an ulp (1/20000) for the second
rounding plus half an ulp scaled by rate[x]/rate[y] for the first. -/
theorem roundtrip_within_tolerance (x y : String) (rx ry a c1 e1 c2 e2 : ℚ)
    (hx : lookupRate (upper x) = some rx)
    (hy : lookupRate (upper y) = some ry)
    (ha : 0 < a)
    (h1 : convert ⟨a, x, y⟩ = .ok a (upper x) (upper y) c1 e1)
    (h2 : convert ⟨c1, y, x⟩ = .ok c1 (upper y) (upper x) c2 e2) :
    |c2 - a| ≤ 1 / 20000 * (rx / ry) + 1 / 20000 := by
  have hrx : 0 < rx := lookupRate_pos hx
  have hry : 0 < ry := lookupRate_pos hy
  have hc1 : c1 = pyRound (a / rx * ry) 4 := by
    have h := h1.symm.trans (convert_ok_eval ⟨a, x, y⟩ rx ry hx hy ha)
    injection h with h1' h2' h3' h4' h5'
  have hc1pos : 0 < c1 := by
    by_contra hle
    push_neg at hle
    have h := (convert_nonpos_amount ⟨c1, y, x⟩ ry rx hy hx hle).symm.trans h2
    exact ConvertResult.noConfusion h
  have hc2 : c2 = pyRound (c1 / ry * rx) 4 := by
    have h := h2.symm.trans (convert_ok_eval ⟨c1, y, x⟩ ry rx hy hx hc1pos)
    injection h with h1' h2' h3' h4' h5'
  have b1 : |c1 - a / rx * ry| ≤ 1 / 20000 := by
    rw [hc1]
    exact (abs_pyRound_sub_le (a / rx * ry) 4).trans (by norm_num)
  have b2 : |c2 - c1 / ry * rx| ≤ 1 / 20000 := by
    rw [hc2]
    exact (abs_pyRound_sub_le (c1 / ry * rx) 4).trans (by norm_num)
  have hdiv : 0 < rx / ry := div_pos hrx hry
  have key : c1 / ry * rx - a = (c1 - a / rx * ry) * (rx / ry) := by
    field_simp
    ring
  calc |c2 - a|
      = |(c2 - c1 / ry * rx) + (c1 / ry * rx - a)| := by ring_nf
    _ ≤ |c2 - c1 / ry * rx| + |c1 / ry * rx - a| := abs_add _ _
    _ = |c2 - c1 / ry * rx| + |c1 - a / rx * ry| * (rx / ry) := by
        rw [key, abs_mul, abs_of_pos hdiv]
    _ ≤ 1 / 20000 + 1 / 20000 * (rx / ry) := by
        have hb := mul_le_mul_of_nonneg_right b1 hdiv.le
        linarith
    _ = 1 / 20000 * (rx / ry) + 1 / 20000 := by ring

/-- Witness for the amended C6: 100 USD → 92 EUR → 100 USD, an exact
round trip, within the stated tolerance. -/
theorem roundtrip_within_tolerance_witness :
    lookupRate (upper "USD") = some 1 ∧
    lookupRate (upper "EUR") = some (92/100) ∧
    (0:ℚ) < 100 ∧
    convert ⟨100, "USD", "EUR"⟩ =
      .ok 100 (upper "USD") (upper "EUR") 92 (92/100) ∧
    convert ⟨92, "EUR", "USD"⟩ =
      .ok 92 (upper "EUR") (upper "USD") 100 (1086957/1000000) ∧
    |(100:ℚ) - 100| ≤ 1 / 20000 * (1 / (92/100)) + 1 / 20000 :=
  by
  have hx : lookupRate (upper "USD") = some 1 := by with_unfolding_all decide
  have hy : lookupRate (upper "EUR") = some (92/100) := by
    with_unfolding_all decide
  have h1 : convert ⟨100, "USD", "EUR"⟩ =
      .ok 100 (upper "USD") (upper "EUR") 92 (92/100) := by
    rw [convert_ok_eval ⟨100, "USD", "EUR"⟩ 1 (92/100) hx hy (by norm_num)]
    norm_num [pyRound]
  have h2 : convert ⟨92, "EUR", "USD"⟩ =
      .ok 92 (upper "EUR") (upper "USD") 100 (1086957/1000000) := by
    rw [convert_ok_eval ⟨92, "EUR", "USD"⟩ (92/100) 1 hy hx (by norm_num)]
    norm_num [pyRound]
  exact ⟨hx, hy, by norm_num, h1, h2,
    roundtrip_within_tolerance "USD" "EUR" 1 (92/100) 100 92 (92/100) 100
      (1086957/1000000) hx hy (by norm_num) h1 h2⟩

end Forex
